import Mathlib

/-!
Shallow embedding of the pro-fin quantitative core (tax engine, Monte Carlo
projection helpers, inflation engine, debt payoff simulator) over exact
rational arithmetic, together with theorems settling the frozen claims.
JavaScript numbers are modelled by the rationals; the functions below mirror
the source statement by statement.
-/

set_option allowUnsafeReducibility true
attribute [semireducible] Rat.sub Rat.add Rat.mul Rat.div Rat.inv

namespace ProFin

/-- JS Math.round: nearest integer, halves toward positive infinity. -/
def jsRound (q : ℚ) : ℤ := ⌊q + 1 / 2⌋

/-! ## Tax engine (src/js/engines/monte-carlo.js, TaxCalculator) -/

/-- The two tax regimes selectable by the caller. -/
inductive Regime where
  | old : Regime
  | new : Regime
deriving DecidableEq, Repr

/-- One tax slab: lower bound, upper bound (none = Infinity), marginal rate
in percent.  Mirrors the entries of TaxCalculator.taxSlabs. -/
structure Slab where
  lo : ℚ
  hi : Option ℚ
  rate : ℚ
deriving DecidableEq, Repr

/-- Per-regime configuration: slab list, standard deduction and the 87A
rebate parameters. -/
structure SlabConfig where
  slabs : List Slab
  standardDeduction : ℚ
  rebateLimit : ℚ
  rebateMax : ℚ
deriving DecidableEq, Repr

/-- TaxCalculator.taxSlabs, FY 2025-26 data. -/
def taxSlabs : Regime → SlabConfig
  | .new =>
    { slabs :=
        [ ⟨0, some 400000, 0⟩, ⟨400000, some 800000, 5⟩,
          ⟨800000, some 1200000, 10⟩, ⟨1200000, some 1600000, 15⟩,
          ⟨1600000, some 2000000, 20⟩, ⟨2000000, some 2400000, 25⟩,
          ⟨2400000, none, 30⟩ ]
      standardDeduction := 75000
      rebateLimit := 700000
      rebateMax := 25000 }
  | .old =>
    { slabs :=
        [ ⟨0, some 250000, 0⟩, ⟨250000, some 500000, 5⟩,
          ⟨500000, some 1000000, 20⟩, ⟨1000000, none, 30⟩ ]
      standardDeduction := 50000
      rebateLimit := 500000
      rebateMax := 12500 }

/-- TaxCalculator.section80CLimit. -/
def section80CLimit : ℚ := 150000

/-- TaxCalculator.section80D.self. -/
def section80Dself : ℚ := 25000

/-- TaxCalculator.section80D.parents. -/
def section80Dparents : ℚ := 25000

/-- TaxCalculator.homeLoan.interestUnder24b. -/
def homeLoanInterestUnder24b : ℚ := 200000

/-- TaxCalculator.ltcgExemption. -/
def ltcgExemption : ℚ := 125000

/-- TaxCalculator.ltcgRate (percent). -/
def ltcgRate : ℚ := 25 / 2

/-- TaxCalculator.stcgRate (percent). -/
def stcgRate : ℚ := 20

/-- The parameter object taken by TaxCalculator.calculateTax, with the same
defaults as the JS destructuring. -/
structure TaxParams where
  grossIncome : ℚ := 0
  regime : Regime := .new
  deductions80C : ℚ := 0
  deductions80D : ℚ := 0
  deductions80CCD : ℚ := 0
  homeLoanInterest : ℚ := 0
  hra : ℚ := 0
  ltcg : ℚ := 0
  stcg : ℚ := 0
deriving DecidableEq, Repr

/-- Tax contributed by one slab at a given taxable income: the code guards
with taxableIncome > slab.min and takes
min(taxableIncome - slab.min, slab.max - slab.min) times the rate; a none
upper bound stands for Infinity, where Math.min returns its finite argument. -/
def slabTax (ti : ℚ) (s : Slab) : ℚ :=
  if s.lo < ti then
    (match s.hi with
      | some hi => min (ti - s.lo) (hi - s.lo)
      | none => ti - s.lo) * (s.rate / 100)
  else 0

/-- The cumulative base tax over a slab list (the for-loop accumulating
baseTax in calculateTax). -/
def baseTaxOf (slabs : List Slab) (ti : ℚ) : ℚ :=
  (slabs.map (slabTax ti)).sum

/-- Taxable income after the standard deduction and, in the old regime, the
capped itemized deductions and the HRA exemption, floored at zero
(Math.max(0, taxableIncome)). -/
def taxableIncomeOf (p : TaxParams) : ℚ :=
  let cfg := taxSlabs p.regime
  let ti0 := p.grossIncome - cfg.standardDeduction
  let ti1 :=
    if p.regime = .old then
      let a80C := min p.deductions80C section80CLimit
      let a80D := min p.deductions80D (section80Dself + section80Dparents)
      let a80CCD := min p.deductions80CCD 50000
      let aHome := min p.homeLoanInterest homeLoanInterestUnder24b
      let ti2 := ti0 - a80C - a80D - a80CCD - aHome
      if 0 < p.hra then ti2 - p.hra else ti2
    else ti0
  max 0 ti1

/-- Base tax after the section 87A rebate: when taxable income is at or
below the rebate limit, min(baseTax, maxRebate) is subtracted. -/
def rebatedTax (cfg : SlabConfig) (ti : ℚ) : ℚ :=
  let bt := baseTaxOf cfg.slabs ti
  if ti ≤ cfg.rebateLimit then bt - min bt cfg.rebateMax else bt

/-- The tiered surcharge rate applied to the whole base tax once taxable
income crosses the breakpoints (the else-if chain in calculateTax). -/
def surchargeRateOf (ti : ℚ) : ℚ :=
  if 5000000 < ti ∧ ti ≤ 10000000 then 10 / 100
  else if 10000000 < ti ∧ ti ≤ 20000000 then 15 / 100
  else if 20000000 < ti ∧ ti ≤ 50000000 then 25 / 100
  else if 50000000 < ti then 37 / 100
  else 0

/-- Capital gains tax, computed separately from slab tax. -/
def capitalGainsTaxOf (p : TaxParams) : ℚ :=
  (if 0 < p.ltcg then max 0 (p.ltcg - ltcgExemption) * (ltcgRate / 100) else 0) +
    (if 0 < p.stcg then p.stcg * (stcgRate / 100) else 0)

/-- The result record of calculateTax.  Fields the JS code returns through
Math.round are integers; taxableIncome (from the breakdown object) and
effectiveRate stay rational. -/
structure TaxResult where
  regime : Regime
  taxableIncome : ℚ
  baseTax : ℤ
  surcharge : ℤ
  cess : ℤ
  capitalGainsTax : ℤ
  totalTax : ℤ
  effectiveRate : ℚ
  monthlyTax : ℤ
deriving DecidableEq, Repr

/-- TaxCalculator.calculateTax.  The unrounded total is
rebated base tax + surcharge + 4 percent cess + capital gains tax; the
effective rate division is guarded by grossIncome > 0. -/
def calculateTax (p : TaxParams) : TaxResult :=
  let cfg := taxSlabs p.regime
  let ti := taxableIncomeOf p
  let bt := rebatedTax cfg ti
  let s := bt * surchargeRateOf ti
  let cess := (bt + s) * (4 / 100)
  let cg := capitalGainsTaxOf p
  let totalTax := bt + s + cess + cg
  { regime := p.regime
    taxableIncome := ti
    baseTax := jsRound bt
    surcharge := jsRound s
    cess := jsRound cess
    capitalGainsTax := jsRound cg
    totalTax := jsRound totalTax
    effectiveRate :=
      if 0 < p.grossIncome then (jsRound (totalTax / p.grossIncome * 10000) : ℚ) / 100
      else 0
    monthlyTax := jsRound (totalTax / 12) }

/-- The result of compareRegimes (the recommendation string is presentation
and is omitted). -/
structure RegimeComparison where
  oldResult : TaxResult
  newResult : TaxResult
  savings : ℤ
  recommendedRegime : Regime
deriving DecidableEq, Repr

/-- TaxCalculator.compareRegimes: runs the engine once per regime; savings
is Math.abs(old - new); the recommendation is new exactly when
old.totalTax - new.totalTax > 0, otherwise old. -/
def compareRegimes (p : TaxParams) : RegimeComparison :=
  let o := calculateTax { p with regime := .old }
  let n := calculateTax { p with regime := .new }
  let savings := o.totalTax - n.totalTax
  { oldResult := o
    newResult := n
    savings := |savings|
    recommendedRegime := if 0 < savings then .new else .old }

/-! ## Monte Carlo engine (src/js/engines/monte-carlo.js, MonteCarlo) -/

/-- The parameter object of MonteCarlo.simulateGoal.  The random monthly
returns are abstracted: simulateGoal below takes the stream of draws
produced by generateMonthlyReturn as an explicit argument. -/
structure SimParams where
  currentAmount : ℚ := 0
  monthlyContribution : ℚ := 0
  expectedReturn : ℚ := 12
  volatility : ℚ := 15
  years : ℚ := 5
  targetAmount : ℚ := 0
  iterations : ℕ := 1000

/-- The inner per-trial loop of simulateGoal: over m months, apply the drawn
monthly return multiplicatively, then add the contribution. -/
def walkMonths (ret : ℕ → ℚ) (start c : ℚ) : ℕ → ℚ
  | 0 => start
  | m + 1 => walkMonths ret start c m * (1 + ret m) + c

/-- The result record of simulateGoal.  Percentiles, mean, min and max pass
through Math.round. -/
structure SimResult where
  probability : ℚ
  p10 : ℤ
  p25 : ℤ
  p50 : ℤ
  p75 : ℤ
  p90 : ℤ
  mean : ℤ
  minOut : ℤ
  maxOut : ℤ
deriving DecidableEq, Repr

/-- MonteCarlo.simulateGoal.  ret i m is the return generateMonthlyReturn
drew for month m of trial i; months = Math.round(years * 12); the results
array is sorted ascending (Array.prototype.sort with a numeric comparator is
a stable ascending sort, embedded as insertionSort); percentiles are read by
nearest-rank index floor(iterations * p). -/
def simulateGoal (ret : ℕ → ℕ → ℚ) (p : SimParams) : SimResult :=
  let months := (jsRound (p.years * 12)).toNat
  let results :=
    (List.range p.iterations).map fun i =>
      walkMonths (ret i) p.currentAmount p.monthlyContribution months
  let sorted := results.insertionSort (· ≤ ·)
  let successCount := sorted.countP fun r => decide (p.targetAmount ≤ r)
  let probability : ℚ := (successCount : ℚ) / (p.iterations : ℚ)
  let pct (q : ℚ) : ℤ := jsRound (sorted.getD (⌊(p.iterations : ℚ) * q⌋).toNat 0)
  { probability := (jsRound (probability * 100) : ℚ) / 100
    p10 := pct (10 / 100)
    p25 := pct (25 / 100)
    p50 := pct (50 / 100)
    p75 := pct (75 / 100)
    p90 := pct (90 / 100)
    mean := jsRound (sorted.sum / (p.iterations : ℚ))
    minOut := jsRound (sorted.getD 0 0)
    maxOut := jsRound (sorted.getD (p.iterations - 1) 0) }

/-- The accumulated value after m months of the calculateYearsToTarget
iteration: value = value * (1 + monthlyRate) + monthlyContribution. -/
def valueAt (start c r : ℚ) : ℕ → ℚ
  | 0 => start
  | m + 1 => valueAt start c r m * (1 + r) + c

/-- The while loop of calculateYearsToTarget, with the remaining fuel making
the month < 600 guard structural (fuel + months = 600 at every call). -/
def yearsLoop (r c target : ℚ) : ℕ → ℚ → ℕ → ℕ
  | 0, _, months => months
  | fuel + 1, value, months =>
    if value < target ∧ months < 600 then
      yearsLoop r c target fuel (value * (1 + r) + c) (months + 1)
    else months

/-- MonteCarlo.calculateYearsToTarget: iterate month by month until the
target is reached or 600 months have passed; return months < 600 ? months :
null. -/
def calculateYearsToTarget (currentAmount monthlyContribution expectedReturn targetAmount : ℚ) :
    Option ℕ :=
  let monthlyRate := expectedReturn / 100 / 12
  let m := yearsLoop monthlyRate monthlyContribution targetAmount 600 currentAmount 0
  if m < 600 then some m else none

/-- MonteCarlo.calculateRequiredSIP.  Years enter only through
months = years * 12, modelled as a natural number of months.  The closed
form divides by (1 + r)^months - 1; when that denominator is zero the JS
expression is 0/0 = NaN (there is no degenerate-rate guard in the source),
modelled as none. -/
def calculateRequiredSIP (currentAmount expectedReturn targetAmount : ℚ) (years : ℕ) :
    Option ℤ :=
  let monthlyRate := expectedReturn / 100 / 12
  let months := years * 12
  let fvCurrent := currentAmount * (1 + monthlyRate) ^ months
  let remaining := targetAmount - fvCurrent
  if remaining ≤ 0 then some 0
  else
    let denom := (1 + monthlyRate) ^ months - 1
    if denom = 0 then none
    else some (max 0 (jsRound (remaining * monthlyRate / denom)))

/-! ## Inflation engine (src/js/engines/inflation.js, Inflation) -/

/-- Inflation.futureValue: presentValue * (1 + rate/100)^years, whole
years. -/
def futureValue (presentVal : ℚ) (years : ℕ) (inflationRate : ℚ) : ℚ :=
  presentVal * (1 + inflationRate / 100) ^ years

/-- Inflation.presentValue: futureValue / (1 + rate/100)^years, whole
years. -/
def presentValue (futureVal : ℚ) (years : ℕ) (inflationRate : ℚ) : ℚ :=
  futureVal / (1 + inflationRate / 100) ^ years

/-! ## Debt payoff simulator (src/js/engines/inflation.js, DebtSnowball) -/

/-- Loan categories distinguished by calculatePriority. -/
inductive LoanType where
  | creditCard : LoanType
  | personal : LoanType
  | home : LoanType
  | education : LoanType
  | other : LoanType
deriving DecidableEq, Repr

/-- One input liability record. -/
structure Liability where
  name : String
  principal : ℚ
  interestRate : ℚ
  emi : ℚ
  loanType : LoanType
deriving DecidableEq, Repr

/-- DebtSnowball.calculatePriority: banded score on interest rate, loan type
bonuses, small balance bonus, tax benefit penalty. -/
def calculatePriority (d : Liability) : ℤ :=
  let s1 : ℤ :=
    if 20 < d.interestRate then 100
    else if 15 < d.interestRate then 80
    else if 12 < d.interestRate then 60
    else if 8 < d.interestRate then 40
    else 20
  let s2 : ℤ :=
    if d.loanType = .creditCard then 50
    else if d.loanType = .personal then 30
    else 0
  let s3 : ℤ :=
    if d.principal < 50000 then 20
    else if d.principal < 200000 then 10
    else 0
  let s4 : ℤ := if d.loanType = .home ∨ d.loanType = .education then -30 else 0
  s1 + s2 + s3 + s4

/-- The mutable per-debt record of the createPayoffPlan simulation. -/
structure DebtState where
  name : String
  principal : ℚ
  interestRate : ℚ
  emi : ℚ
  balance : ℚ
  paid : ℚ
  monthsPaid : ℕ
deriving DecidableEq, Repr

/-- One rounded row of a month plan (monthPlan.payments entries). -/
structure PaymentRow where
  name : String
  payment : ℤ
  interest : ℤ
  principal : ℤ
  balance : ℤ
deriving DecidableEq, Repr

/-- Payment applied to one active debt that receives extra amount e on top
of its installment: interest accrues on the balance, the payment is
min(emi + e, balance + interest) and the balance update is
Math.max(0, balance - (payment - interest)).  Returns the updated debt and
the payment made. -/
def planPay (e : ℚ) (d : DebtState) : DebtState × ℚ :=
  let monthlyRate := d.interestRate / 100 / 12
  let interest := d.balance * monthlyRate
  let payment := min (d.emi + e) (d.balance + interest)
  let principalPaid := payment - interest
  ({ d with
      balance := max 0 (d.balance - principalPaid)
      paid := d.paid + payment
      monthsPaid := d.monthsPaid + 1 },
    payment)

/-- One month of the createPayoffPlan inner loop, walking the debt list in
order.  The first argument is totalExtraAvailable; cleared records whether
every debt already walked has zero balance (so that the JS test
debts.find(d => d.balance > 0) === debt holds for the next active debt);
freed is the freedUpPayment accumulated this month.  Returns the updated
debts, the payment rows and the final freed amount. -/
def processMonth (totalExtra : ℚ) :
    List DebtState → Bool → ℚ → List DebtState × List PaymentRow × ℚ
  | [], _, freed => ([], [], freed)
  | d :: rest, cleared, freed =>
    if d.balance ≤ 0 then
      let (ds, rows, f) := processMonth totalExtra rest cleared freed
      (d :: ds, rows, f)
    else
      let e := if cleared then totalExtra + freed else 0
      let interest := d.balance * (d.interestRate / 100 / 12)
      let (d1, payment) := planPay e d
      let freed1 := if d1.balance = 0 then freed + d.emi else freed
      let cleared1 := cleared && decide (d1.balance ≤ 0)
      let row : PaymentRow :=
        ⟨d.name, jsRound payment, jsRound interest, jsRound (payment - interest),
          jsRound d1.balance⟩
      let (ds, rows, f) := processMonth totalExtra rest cleared1 freed1
      (d1 :: ds, row :: rows, f)

/-- The while loop of createPayoffPlan: run months while some balance is
positive and month < 600 (the guard is carried by the fuel, which starts at
600 with month 0). -/
def planLoop (totalExtra : ℚ) :
    ℕ → List DebtState → ℕ → List (ℕ × List PaymentRow) →
      List DebtState × ℕ × List (ℕ × List PaymentRow)
  | 0, ds, month, acc => (ds, month, acc)
  | fuel + 1, ds, month, acc =>
    if ds.any fun d => decide (0 < d.balance) then
      let (ds1, rows, _) := processMonth totalExtra ds true 0
      planLoop totalExtra fuel ds1 (month + 1) (acc ++ [(month + 1, rows)])
    else (ds, month, acc)

/-- The per-debt record of simulateMinimumPayments. -/
structure MinDebt where
  balance : ℚ
  emi : ℚ
  rate : ℚ
  paid : ℚ
deriving DecidableEq, Repr

/-- The initial simulation record createPayoffPlan builds from a liability
(clone with balance = principal, paid = 0, monthsPaid = 0). -/
def debtStateOf (d : Liability) : DebtState :=
  ⟨d.name, d.principal, d.interestRate, d.emi, d.principal, 0, 0⟩

/-- The initial record simulateMinimumPayments builds from a liability. -/
def minDebtOf (d : Liability) : MinDebt :=
  ⟨d.principal, d.emi, d.interestRate, 0⟩

/-- Projection of a plan debt state onto the minimum-payment record shape. -/
def minOfState (d : DebtState) : MinDebt :=
  ⟨d.balance, d.emi, d.interestRate, d.paid⟩

/-- One month of one debt under minimum payments: accrue interest, pay
min(emi, balance + interest). -/
def minStep (d : MinDebt) : MinDebt :=
  if d.balance ≤ 0 then d
  else
    let interest := d.balance * (d.rate / 100 / 12)
    let payment := min d.emi (d.balance + interest)
    { d with balance := max 0 (d.balance + interest - payment), paid := d.paid + payment }

/-- The while loop of simulateMinimumPayments (fuel = 600 - month). -/
def minLoop : ℕ → List MinDebt → ℕ → List MinDebt × ℕ
  | 0, ds, month => (ds, month)
  | fuel + 1, ds, month =>
    if ds.any fun d => decide (0 < d.balance) then
      minLoop fuel (ds.map minStep) (month + 1)
    else (ds, month)

/-- Result of simulateMinimumPayments (totalPaid kept unrounded, as in the
source). -/
structure MinResult where
  months : ℕ
  totalPaid : ℚ
deriving DecidableEq, Repr

/-- DebtSnowball.simulateMinimumPayments. -/
def simulateMinimumPayments (liabilities : List Liability) : MinResult :=
  let (final, months) := minLoop 600 (liabilities.map minDebtOf) 0
  ⟨months, (final.map (·.paid)).sum⟩

/-- Payoff method selector of createPayoffPlan. -/
inductive Method where
  | avalanche : Method
  | snowball : Method
deriving DecidableEq, Repr

/-- The summary block of createPayoffPlan. -/
structure PayoffSummary where
  totalMonths : ℕ
  totalPaid : ℤ
  monthsSaved : ℤ
  interestSaved : ℤ
deriving DecidableEq, Repr

/-- The plan object returned by createPayoffPlan (per-debt recap fields not
needed by any claim are represented by the final debt states). -/
structure PayoffPlan where
  method : Method
  plan : List (ℕ × List PaymentRow)
  finalDebts : List DebtState
  summary : PayoffSummary
deriving DecidableEq, Repr

/-- DebtSnowball.createPayoffPlan: null on an empty debt list; otherwise
order by analyzeDebts priority (stable descending sort), re-sort by the
method (interest rate descending for avalanche, balance ascending for
snowball; JS Array.prototype.sort is stable, embedded as insertionSort),
simulate up to 600 months, and compare with the minimum-payment baseline. -/
def createPayoffPlan (liabilities : List Liability) (extraPayment : ℚ) (method : Method) :
    Option PayoffPlan :=
  if liabilities = [] then none
  else
    let analyzed := liabilities.insertionSort fun a b => calculatePriority b ≤ calculatePriority a
    let debts0 : List DebtState := analyzed.map debtStateOf
    let sorted :=
      match method with
      | .avalanche => debts0.insertionSort fun a b => b.interestRate ≤ a.interestRate
      | .snowball => debts0.insertionSort fun a b => a.balance ≤ b.balance
    let (final, months, plan) := planLoop extraPayment 600 sorted 0 []
    let totalPaid := (final.map (·.paid)).sum
    let base := simulateMinimumPayments liabilities
    some
      { method := method
        plan := plan
        finalDebts := final
        summary :=
          { totalMonths := months
            totalPaid := jsRound totalPaid
            monthsSaved := (base.months : ℤ) - (months : ℤ)
            interestSaved := jsRound (base.totalPaid - totalPaid) } }

/-! ## Specification-side definitions used by the theorems -/

/-- Well-formedness of one slab: non-negative marginal rate and an upper
bound no smaller than the lower bound.  Both concrete regime tables satisfy
it. -/
def SlabOK (s : Slab) : Prop :=
  0 ≤ s.rate ∧ s.lo ≤ s.hi.getD s.lo

instance (s : Slab) : Decidable (SlabOK s) := by unfold SlabOK; infer_instance

/-- Domination relation between a debt state of the optimized plan and the
corresponding minimum-payment debt: same installment and rate, the plan
balance is non-negative and at most the baseline balance, and the plan
cash-out-plus-balance never exceeds the baseline one. -/
def DebtRel (d : DebtState) (m : MinDebt) : Prop :=
  d.emi = m.emi ∧ d.interestRate = m.rate ∧ 0 ≤ d.balance ∧ d.balance ≤ m.balance ∧
    0 ≤ m.rate ∧ 0 ≤ m.emi ∧ d.paid + d.balance ≤ m.paid + m.balance

/-- The minimum-payment baseline retires every debt within the 600-month
cap (every final balance is zero). -/
def baselineClears (liabilities : List Liability) : Prop :=
  ∀ m ∈ (minLoop 600 (liabilities.map minDebtOf) 0).1, m.balance = 0

instance (liabilities : List Liability) : Decidable (baselineClears liabilities) := by
  unfold baselineClears; infer_instance

/-! ## Theorems -/

/-- Rounding never decreases under a larger argument. -/
theorem jsRound_mono {a b : ℚ} (h : a ≤ b) : jsRound a ≤ jsRound b :=
  Int.floor_le_floor (by linarith)

/-- Rounding a non-negative rational is non-negative. -/
theorem jsRound_nonneg {a : ℚ} (h : 0 ≤ a) : 0 ≤ jsRound a := by
  have : (0 : ℤ) = ⌊(0 : ℚ) + 1 / 2⌋ := by norm_num
  rw [jsRound, this]
  exact Int.floor_le_floor (by linarith)

/-- C1: calculateTax on gross income 1,200,000 under the new regime with no
deduction inputs yields taxable income 1,125,000 after the 75,000 standard
deduction, and a base tax of exactly 52,500 from the cumulative slab walk
(400,000 at 5 percent plus 325,000 at 10 percent). -/
theorem calculateTax_new_regime_1200000 :
    (calculateTax { grossIncome := 1200000, regime := Regime.new }).taxableIncome = 1125000 ∧
      (calculateTax { grossIncome := 1200000, regime := Regime.new }).baseTax = 52500 := by
  decide

/-- C4: calculateRequiredSIP has no degenerate-rate guard.  At a zero
expected return with a positive remaining amount the closed-form annuity
denominator (1 + r)^months - 1 is zero and the JS division 0/0 yields NaN
(modelled by none) instead of the linear fallback remaining/months the
specification requires (1,000,000 / 60 for this input). -/
theorem calculateRequiredSIP_zero_rate_nan :
    calculateRequiredSIP 0 0 1000000 5 = none := by
  decide

/-- C9: presentValue inverts futureValue exactly over exact rational
arithmetic: futureValue multiplies by (1 + R/100)^Y and presentValue
divides by the same non-zero factor. -/
theorem presentValue_futureValue_roundtrip (X : ℚ) (Y : ℕ) (R : ℚ)
    (hX : 0 < X) (hR : 0 ≤ R) :
    presentValue (futureValue X Y R) Y R = X := by
  have h1 : (0 : ℚ) < 1 + R / 100 := by linarith
  have h2 : (1 + R / 100) ^ Y ≠ 0 := pow_ne_zero _ (ne_of_gt h1)
  unfold presentValue futureValue
  field_simp

/-- Witness for C9 at X = 100, Y = 3, R = 6. -/
theorem presentValue_futureValue_roundtrip_witness :
    presentValue (futureValue 100 3 6) 3 6 = 100 :=
  presentValue_futureValue_roundtrip 100 3 6 (by norm_num) (by norm_num)

/-- C10: the effective-rate division in calculateTax is guarded by a
grossIncome > 0 test; whenever the gross income is not strictly positive
the returned effectiveRate is 0. -/
theorem calculateTax_effectiveRate_guard (p : TaxParams) (h : ¬ 0 < p.grossIncome) :
    (calculateTax p).effectiveRate = 0 := by
  simp only [calculateTax]
  rw [if_neg h]

/-- Witness for C10 at gross income 0. -/
theorem calculateTax_effectiveRate_guard_witness :
    (calculateTax { grossIncome := 0 }).effectiveRate = 0 :=
  calculateTax_effectiveRate_guard { grossIncome := 0 } (by norm_num)

/-- C5 counterexample: at gross income 0 the two regimes yield the same
total tax, yet compareRegimes recommends the old regime, not the new one
that the claim demands on ties (savings > 0 fails for savings = 0). -/
theorem compareRegimes_tie_counterexample :
    (calculateTax { grossIncome := 0, regime := Regime.old }).totalTax =
        (calculateTax { grossIncome := 0, regime := Regime.new }).totalTax ∧
      (compareRegimes { grossIncome := 0 }).recommendedRegime ≠ Regime.new := by
  decide

/-- C5 (amended): compareRegimes runs the engine once per regime and
recommends the strictly cheaper regime; on exact ties it recommends the old
regime. -/
theorem compareRegimes_recommendation (p : TaxParams) :
    ((calculateTax { p with regime := Regime.new }).totalTax <
        (calculateTax { p with regime := Regime.old }).totalTax →
      (compareRegimes p).recommendedRegime = Regime.new) ∧
    ((calculateTax { p with regime := Regime.old }).totalTax ≤
        (calculateTax { p with regime := Regime.new }).totalTax →
      (compareRegimes p).recommendedRegime = Regime.old) := by
  unfold compareRegimes
  constructor
  · intro h
    simp only
    rw [if_pos (by omega)]
  · intro h
    simp only
    rw [if_neg (by omega)]

/-- Witness for C5 at the tie produced by gross income 0. -/
theorem compareRegimes_recommendation_witness :
    (compareRegimes { grossIncome := 0 }).recommendedRegime = Regime.old :=
  (compareRegimes_recommendation { grossIncome := 0 }).2 (by decide)

/-- Loop invariant of the calculateYearsToTarget iteration: starting at a
month consistent with the remaining fuel and with the target missed at
every earlier month, the loop returns the earliest month at which the
accumulated value reaches the target, or 600 when no month strictly below
600 does. -/
theorem yearsLoop_spec (r c target start : ℚ) :
    ∀ fuel months : ℕ, months + fuel = 600 →
      (∀ k < months, valueAt start c r k < target) →
      months ≤ yearsLoop r c target fuel (valueAt start c r months) months ∧
      yearsLoop r c target fuel (valueAt start c r months) months ≤ 600 ∧
      (yearsLoop r c target fuel (valueAt start c r months) months < 600 →
        target ≤ valueAt start c r (yearsLoop r c target fuel (valueAt start c r months) months) ∧
        ∀ k < yearsLoop r c target fuel (valueAt start c r months) months,
          valueAt start c r k < target) ∧
      (yearsLoop r c target fuel (valueAt start c r months) months = 600 →
        ∀ k < 600, valueAt start c r k < target) := by
  intro fuel
  induction fuel with
  | zero =>
    intro months h600 hprev
    have hm : months = 600 := by omega
    subst hm
    simp only [yearsLoop]
    exact ⟨le_refl _, le_refl _, fun h => absurd h (lt_irrefl _), fun _ => hprev⟩
  | succ n ih =>
    intro months h600 hprev
    simp only [yearsLoop]
    by_cases hlt : valueAt start c r months < target
    · have hm : months < 600 := by omega
      rw [if_pos ⟨hlt, hm⟩]
      have hprev1 : ∀ k < months + 1, valueAt start c r k < target := by
        intro k hk
        rcases Nat.lt_succ_iff_lt_or_eq.mp hk with h | h
        · exact hprev k h
        · rw [h]; exact hlt
      have hrec := ih (months + 1) (by omega) hprev1
      rw [show valueAt start c r (months + 1) = valueAt start c r months * (1 + r) + c from rfl]
        at hrec
      exact ⟨le_trans (Nat.le_succ months) hrec.1, hrec.2.1, hrec.2.2.1, hrec.2.2.2⟩
    · rw [if_neg fun h => hlt h.1]
      refine ⟨le_refl _, by omega, fun _ => ⟨not_lt.mp hlt, hprev⟩, fun h => absurd h (by omega)⟩

/-- C8 (amended): calculateYearsToTarget terminates with at most 600
iterations and characterizes its result: null is returned exactly when the
accumulated value stays below the target at every month strictly before
600 (in particular a target first met exactly at month 600 is reported as
null), and a non-null result is the first month at which the value meets
the target, always below 600. -/
theorem calculateYearsToTarget_spec (current c er target : ℚ) :
    (calculateYearsToTarget current c er target = none ↔
      ∀ m < 600, valueAt current c (er / 100 / 12) m < target) ∧
    ∀ m, calculateYearsToTarget current c er target = some m →
      m < 600 ∧ target ≤ valueAt current c (er / 100 / 12) m ∧
      ∀ k < m, valueAt current c (er / 100 / 12) k < target := by
  have h := yearsLoop_spec (er / 100 / 12) c target current 600 0 (by omega)
    (fun k hk => absurd hk (Nat.not_lt_zero k))
  rw [show valueAt current c (er / 100 / 12) 0 = current from rfl] at h
  obtain ⟨h1, h2, h3, h4⟩ := h
  unfold calculateYearsToTarget
  simp only
  by_cases hc : yearsLoop (er / 100 / 12) c target 600 current 0 < 600
  · rw [if_pos hc]
    constructor
    · constructor
      · intro habs; exact absurd habs (by simp)
      · intro hall
        exact absurd ((h3 hc).1) (not_le.mpr (hall _ hc))
    · intro m hm
      have : m = yearsLoop (er / 100 / 12) c target 600 current 0 := by
        injection hm with hm2; omega
      rw [this]
      exact ⟨hc, (h3 hc).1, (h3 hc).2⟩
  · rw [if_neg hc]
    have h600 : yearsLoop (er / 100 / 12) c target 600 current 0 = 600 := by omega
    refine ⟨iff_of_true rfl (h4 h600), fun m hm => absurd hm (by simp)⟩

/-- Witness for C8 applied at the input (0, 1, 0, 3): the returned month 3
is the first month meeting the target. -/
theorem calculateYearsToTarget_spec_witness :
    (3 : ℚ) ≤ valueAt 0 1 ((0 : ℚ) / 100 / 12) 3 ∧
      ∀ k < 3, valueAt 0 1 ((0 : ℚ) / 100 / 12) k < 3 := by
  have h := (calculateYearsToTarget_spec 0 1 0 3).2 3 (by decide)
  exact ⟨h.2.1, h.2.2⟩

/-- With a zero rate, a zero start and a unit contribution the accumulated
value after m months is exactly m. -/
theorem valueAt_unit_linear : ∀ m : ℕ, valueAt 0 1 ((0 : ℚ) / 100 / 12) m = m := by
  intro m
  induction m with
  | zero => simp [valueAt]
  | succ n ih =>
    show valueAt 0 1 ((0 : ℚ) / 100 / 12) n * (1 + (0 : ℚ) / 100 / 12) + 1 = (n + 1 : ℕ)
    rw [ih]
    push_cast
    ring

/-- C8 counterexample for the claim as stated: with no interest, a
contribution of 1 and a target of 600 the accumulated value first meets the
target exactly at month 600, i.e. within the 600-month cap, yet
calculateYearsToTarget reports the null sentinel (the loop exits with
months = 600 and months < 600 fails). -/
theorem calculateYearsToTarget_cap_counterexample :
    calculateYearsToTarget 0 1 0 600 = none ∧
      (600 : ℚ) ≤ valueAt 0 1 ((0 : ℚ) / 100 / 12) 600 := by
  constructor
  · have h := yearsLoop_spec ((0 : ℚ) / 100 / 12) 1 600 0 600 0 (by omega)
      (fun k hk => absurd hk (Nat.not_lt_zero k))
    rw [show valueAt 0 1 ((0 : ℚ) / 100 / 12) 0 = 0 from rfl] at h
    obtain ⟨-, h2, h3, -⟩ := h
    have hres : yearsLoop ((0 : ℚ) / 100 / 12) 1 600 600 0 0 = 600 := by
      by_contra hne
      have hlt : yearsLoop ((0 : ℚ) / 100 / 12) 1 600 600 0 0 < 600 := by omega
      have := (h3 hlt).1
      rw [valueAt_unit_linear] at this
      have hcast : ((yearsLoop ((0 : ℚ) / 100 / 12) 1 600 600 0 0 : ℕ) : ℚ) < 600 := by
        exact_mod_cast hlt
      linarith
    unfold calculateYearsToTarget
    simp only
    rw [hres]
    simp
  · rw [valueAt_unit_linear]
    norm_num

/-- getD on a replicated list inside bounds returns the replicated value. -/
theorem getD_replicate_of_lt {a : ℚ} : ∀ {n k : ℕ}, k < n →
    (List.replicate n a).getD k 0 = a := by
  intro n
  induction n with
  | zero => intro k hk; exact absurd hk (Nat.not_lt_zero k)
  | succ m ih =>
    intro k hk
    cases k with
    | zero => rfl
    | succ j =>
      rw [List.replicate_succ, List.getD_cons_succ]
      exact ih (by omega)

/-- countP on a replicated list counts everything or nothing. -/
theorem countP_replicate (p : ℚ → Bool) (a : ℚ) : ∀ n : ℕ,
    (List.replicate n a).countP p = if p a then n else 0 := by
  intro n
  induction n with
  | zero => simp
  | succ m ih =>
    rw [List.replicate_succ, List.countP_cons, ih]
    by_cases hp : p a <;> simp [hp]

/-- The nearest-rank index floor(n * q) is in bounds for 0 ≤ q < 1 and
n ≥ 1. -/
theorem floor_mul_frac_lt {q : ℚ} (hq1 : q < 1) {n : ℕ} (hn : 1 ≤ n) :
    (⌊(n : ℚ) * q⌋).toNat < n := by
  have hpos : (0 : ℚ) < (n : ℚ) := by exact_mod_cast hn
  have h1 : (n : ℚ) * q < (n : ℚ) := by nlinarith
  have h2 : ⌊(n : ℚ) * q⌋ < (n : ℤ) := Int.floor_lt.mpr (by exact_mod_cast h1)
  omega

/-- C6 (amended): with years = 0 and at least one iteration, simulateGoal
returns probability exactly 1 when currentAmount already meets the target
and exactly 0 otherwise, and every percentile equals
Math.round(currentAmount) - the rounded current amount, which coincides
with currentAmount whenever it is an integer. -/
theorem simulateGoal_years_zero (ret : ℕ → ℕ → ℚ) (p : SimParams)
    (hiter : 1 ≤ p.iterations) (hy : p.years = 0) :
    (simulateGoal ret p).probability = (if p.targetAmount ≤ p.currentAmount then 1 else 0) ∧
      (simulateGoal ret p).p10 = jsRound p.currentAmount ∧
      (simulateGoal ret p).p25 = jsRound p.currentAmount ∧
      (simulateGoal ret p).p50 = jsRound p.currentAmount ∧
      (simulateGoal ret p).p75 = jsRound p.currentAmount ∧
      (simulateGoal ret p).p90 = jsRound p.currentAmount := by
  obtain ⟨ca, mc, er, vol, yrs, ta, its⟩ := p
  simp only at hiter hy ⊢
  subst hy
  have h0 : (jsRound ((0 : ℚ) * 12)).toNat = 0 := by norm_num [jsRound]
  simp only [simulateGoal, h0, walkMonths, List.map_const', List.length_range]
  have hsort : (List.replicate its ca).insertionSort (· ≤ ·) = List.replicate its ca := by
    rw [List.eq_replicate_iff]
    refine ⟨by rw [List.length_insertionSort, List.length_replicate], fun b hb => ?_⟩
    have := (List.mem_insertionSort (· ≤ ·)).mp hb
    exact (List.mem_replicate.mp this).2
  rw [hsort]
  have hits0 : ((its : ℚ)) ≠ 0 := Nat.cast_ne_zero.mpr (by omega)
  have hcount := countP_replicate (fun r => decide (ta ≤ r)) ca its
  have hgd : ∀ q : ℚ, q < 1 →
      (List.replicate its ca).getD (⌊(its : ℚ) * q⌋).toNat 0 = ca := fun q hq =>
    getD_replicate_of_lt (floor_mul_frac_lt hq hiter)
  refine ⟨?_, ?_, ?_, ?_, ?_, ?_⟩
  · rw [hcount]
    by_cases hta : ta ≤ ca
    · rw [if_pos hta, if_pos (by simpa using hta)]
      rw [div_self hits0]
      norm_num [jsRound]
    · rw [if_neg hta, if_neg (by simpa using hta)]
      rw [Nat.cast_zero, zero_div]
      norm_num [jsRound]
  · rw [hgd (10 / 100) (by norm_num)]
  · rw [hgd (25 / 100) (by norm_num)]
  · rw [hgd (50 / 100) (by norm_num)]
  · rw [hgd (75 / 100) (by norm_num)]
  · rw [hgd (90 / 100) (by norm_num)]

/-- Witness for C6 with two trivial trials, current amount 5 and target 3:
success probability 1 and all percentiles equal 5. -/
theorem simulateGoal_years_zero_witness :
    (simulateGoal (fun _ _ => 0)
        { currentAmount := 5, monthlyContribution := 0, expectedReturn := 12, volatility := 15,
          years := 0, targetAmount := 3, iterations := 2 }).probability = 1 ∧
      (simulateGoal (fun _ _ => 0)
        { currentAmount := 5, monthlyContribution := 0, expectedReturn := 12, volatility := 15,
          years := 0, targetAmount := 3, iterations := 2 }).p50 = 5 := by
  have h := simulateGoal_years_zero (fun _ _ => 0)
    { currentAmount := 5, monthlyContribution := 0, expectedReturn := 12, volatility := 15,
      years := 0, targetAmount := 3, iterations := 2 } (by norm_num) rfl
  rw [if_pos (by norm_num : (3 : ℚ) ≤ 5)] at h
  have h50 := h.2.2.1
  simp only at h50
  rw [show jsRound (5 : ℚ) = 5 from by norm_num [jsRound]] at h50
  exact ⟨h.1, h50⟩

/-- C6 counterexample for the claim as stated: with years = 0 and a
fractional current amount of 1/2, the returned median is
Math.round(1/2) = 1, which differs from the current amount, so the claim
that every percentile equals currentAmount fails on non-integer inputs. -/
theorem simulateGoal_percentile_counterexample :
    ((simulateGoal (fun _ _ => 0)
        { currentAmount := 1 / 2, monthlyContribution := 0, expectedReturn := 12,
          volatility := 15, years := 0, targetAmount := 0, iterations := 1 }).p50 : ℚ) ≠
      1 / 2 ∧
      (simulateGoal (fun _ _ => 0)
        { currentAmount := 1 / 2, monthlyContribution := 0, expectedReturn := 12,
          volatility := 15, years := 0, targetAmount := 0, iterations := 1 }).p50 = 1 := by
  decide

set_option maxRecDepth 8000 in
/-- C2: the freed-installment waterfall does not persist across months.
Two zero-interest debts, A (balance 1000, installment 600) and B (balance
10000, installment 500), no pooled extra payment, avalanche order A then B.
A pays off in month 2 and its freed installment of 600 does reach B within
that same month (payment 1100), but in month 3 - the first month after the
payoff - B receives only its own installment of 500: freedUpPayment is
reset to zero each month and totalExtraAvailable is never increased, so the
claimed compounding onto every subsequent month does not happen. -/
theorem createPayoffPlan_waterfall_not_persistent :
    (createPayoffPlan
        [⟨"A", 1000, 0, 600, LoanType.personal⟩, ⟨"B", 10000, 0, 500, LoanType.other⟩]
        0 Method.avalanche).map (fun P => P.plan.take 3) =
      some [(1, [⟨"A", 600, 0, 600, 400⟩, ⟨"B", 500, 0, 500, 9500⟩]),
            (2, [⟨"A", 400, 0, 400, 0⟩, ⟨"B", 1100, 0, 1100, 8400⟩]),
            (3, [⟨"B", 500, 0, 500, 7900⟩])] := by
  decide

/-- Both concrete regime tables consist of well-formed slabs. -/
theorem taxSlabs_ok (r : Regime) : ∀ s ∈ (taxSlabs r).slabs, SlabOK s := by
  cases r <;> decide

/-- Both concrete regimes have a non-negative maximum rebate. -/
theorem rebateMax_nonneg (r : Regime) : 0 ≤ (taxSlabs r).rebateMax := by
  cases r <;> decide

/-- A well-formed slab never contributes negative tax. -/
theorem slabTax_nonneg {s : Slab} (hs : SlabOK s) (ti : ℚ) : 0 ≤ slabTax ti s := by
  obtain ⟨hr, hhi⟩ := hs
  have hr100 : 0 ≤ s.rate / 100 := div_nonneg hr (by norm_num)
  unfold slabTax
  split_ifs with h
  · cases hcase : s.hi with
    | some hi =>
      rw [hcase] at hhi
      simp only [Option.getD_some] at hhi
      simp only [hcase]
      exact mul_nonneg (le_min (by linarith) (by linarith)) hr100
    | none =>
      simp only [hcase]
      exact mul_nonneg (by linarith) hr100
  · exact le_refl 0

/-- The tax contributed by a well-formed slab is monotone in taxable
income. -/
theorem slabTax_mono {s : Slab} (hs : SlabOK s) {t1 t2 : ℚ} (h : t1 ≤ t2) :
    slabTax t1 s ≤ slabTax t2 s := by
  by_cases h1 : s.lo < t1
  · obtain ⟨hr, hhi⟩ := hs
    have hr100 : 0 ≤ s.rate / 100 := div_nonneg hr (by norm_num)
    unfold slabTax
    rw [if_pos h1, if_pos (lt_of_lt_of_le h1 h)]
    apply mul_le_mul_of_nonneg_right _ hr100
    cases hcase : s.hi with
    | some hi =>
      simp only
      exact min_le_min (by linarith) (le_refl _)
    | none =>
      simp only
      linarith
  · have hz : slabTax t1 s = 0 := by unfold slabTax; rw [if_neg h1]
    rw [hz]
    exact slabTax_nonneg hs t2

/-- The cumulative base tax over well-formed slabs is non-negative. -/
theorem baseTaxOf_nonneg {slabs : List Slab} (hs : ∀ s ∈ slabs, SlabOK s) (ti : ℚ) :
    0 ≤ baseTaxOf slabs ti := by
  unfold baseTaxOf
  apply List.sum_nonneg
  intro x hx
  obtain ⟨s, hsm, rfl⟩ := List.mem_map.mp hx
  exact slabTax_nonneg (hs s hsm) ti

/-- The cumulative base tax over well-formed slabs is monotone in taxable
income. -/
theorem baseTaxOf_mono {slabs : List Slab} (hs : ∀ s ∈ slabs, SlabOK s) {t1 t2 : ℚ}
    (h : t1 ≤ t2) : baseTaxOf slabs t1 ≤ baseTaxOf slabs t2 :=
  List.sum_le_sum fun s hsm => slabTax_mono (hs s hsm) h

/-- The rebated base tax is non-negative. -/
theorem rebatedTax_nonneg (cfg : SlabConfig) (hs : ∀ s ∈ cfg.slabs, SlabOK s) (ti : ℚ) :
    0 ≤ rebatedTax cfg ti := by
  unfold rebatedTax
  simp only
  have hbt := baseTaxOf_nonneg hs ti
  split_ifs
  · have := min_le_left (baseTaxOf cfg.slabs ti) cfg.rebateMax
    linarith
  · exact hbt

/-- The rebated base tax is monotone in taxable income: within the rebate
region the subtraction min(baseTax, maxRebate) is monotone, and crossing
the rebate threshold only removes a non-negative rebate. -/
theorem rebatedTax_mono (cfg : SlabConfig) (hs : ∀ s ∈ cfg.slabs, SlabOK s)
    (hmr : 0 ≤ cfg.rebateMax) {t1 t2 : ℚ} (h : t1 ≤ t2) :
    rebatedTax cfg t1 ≤ rebatedTax cfg t2 := by
  have h1 := baseTaxOf_mono hs h
  have hb1 := baseTaxOf_nonneg hs t1
  unfold rebatedTax
  simp only
  split_ifs with c1 c2
  · rcases min_cases (baseTaxOf cfg.slabs t1) cfg.rebateMax with ⟨e1, l1⟩ | ⟨e1, l1⟩ <;>
      rcases min_cases (baseTaxOf cfg.slabs t2) cfg.rebateMax with ⟨e2, l2⟩ | ⟨e2, l2⟩ <;>
      rw [e1, e2] <;> linarith
  · have hmin : 0 ≤ min (baseTaxOf cfg.slabs t1) cfg.rebateMax := le_min hb1 hmr
    linarith
  · exact absurd (h.trans (by assumption)) c1
  · exact h1

/-- Surcharge rate evaluation below the first breakpoint. -/
theorem surchargeRateOf_band0 {ti : ℚ} (h : ti ≤ 5000000) : surchargeRateOf ti = 0 := by
  unfold surchargeRateOf
  rw [if_neg fun hc => absurd hc.1 (not_lt.mpr h),
    if_neg fun hc => absurd hc.1 (by intro hx; linarith),
    if_neg fun hc => absurd hc.1 (by intro hx; linarith),
    if_neg (by intro hx; linarith)]

/-- Surcharge rate evaluation in the 10 percent band. -/
theorem surchargeRateOf_band10 {ti : ℚ} (h1 : 5000000 < ti) (h2 : ti ≤ 10000000) :
    surchargeRateOf ti = 10 / 100 := by
  unfold surchargeRateOf
  rw [if_pos ⟨h1, h2⟩]

/-- Surcharge rate evaluation in the 15 percent band. -/
theorem surchargeRateOf_band15 {ti : ℚ} (h1 : 10000000 < ti) (h2 : ti ≤ 20000000) :
    surchargeRateOf ti = 15 / 100 := by
  unfold surchargeRateOf
  rw [if_neg fun hc => absurd hc.2 (by intro hx; linarith), if_pos ⟨h1, h2⟩]

/-- Surcharge rate evaluation in the 25 percent band. -/
theorem surchargeRateOf_band25 {ti : ℚ} (h1 : 20000000 < ti) (h2 : ti ≤ 50000000) :
    surchargeRateOf ti = 25 / 100 := by
  unfold surchargeRateOf
  rw [if_neg fun hc => absurd hc.2 (by intro hx; linarith),
    if_neg fun hc => absurd hc.2 (by intro hx; linarith), if_pos ⟨h1, h2⟩]

/-- Surcharge rate evaluation above the last breakpoint. -/
theorem surchargeRateOf_band37 {ti : ℚ} (h1 : 50000000 < ti) :
    surchargeRateOf ti = 37 / 100 := by
  unfold surchargeRateOf
  rw [if_neg fun hc => absurd hc.2 (by intro hx; linarith),
    if_neg fun hc => absurd hc.2 (by intro hx; linarith),
    if_neg fun hc => absurd hc.2 (by intro hx; linarith), if_pos h1]

/-- The tiered surcharge rate is never negative. -/
theorem surchargeRateOf_nonneg (ti : ℚ) : 0 ≤ surchargeRateOf ti := by
  unfold surchargeRateOf
  split_ifs <;> norm_num

/-- The tiered surcharge rate is monotone in taxable income. -/
theorem surchargeRateOf_mono {t1 t2 : ℚ} (h : t1 ≤ t2) :
    surchargeRateOf t1 ≤ surchargeRateOf t2 := by
  rcases le_or_lt t2 5000000 with hb | hb
  · rw [surchargeRateOf_band0 (h.trans hb), surchargeRateOf_band0 hb]
  rcases le_or_lt t2 10000000 with hb2 | hb2
  · rw [surchargeRateOf_band10 hb hb2]
    rcases le_or_lt t1 5000000 with hc | hc
    · rw [surchargeRateOf_band0 hc]; norm_num
    · rw [surchargeRateOf_band10 hc (h.trans hb2)]
  rcases le_or_lt t2 20000000 with hb3 | hb3
  · rw [surchargeRateOf_band15 hb2 hb3]
    rcases le_or_lt t1 5000000 with hc | hc
    · rw [surchargeRateOf_band0 hc]; norm_num
    rcases le_or_lt t1 10000000 with hc2 | hc2
    · rw [surchargeRateOf_band10 hc hc2]; norm_num
    · rw [surchargeRateOf_band15 hc2 (h.trans hb3)]
  rcases le_or_lt t2 50000000 with hb4 | hb4
  · rw [surchargeRateOf_band25 hb3 hb4]
    rcases le_or_lt t1 5000000 with hc | hc
    · rw [surchargeRateOf_band0 hc]; norm_num
    rcases le_or_lt t1 10000000 with hc2 | hc2
    · rw [surchargeRateOf_band10 hc hc2]; norm_num
    rcases le_or_lt t1 20000000 with hc3 | hc3
    · rw [surchargeRateOf_band15 hc2 hc3]; norm_num
    · rw [surchargeRateOf_band25 hc3 (h.trans hb4)]
  · rw [surchargeRateOf_band37 hb4]
    rcases le_or_lt t1 5000000 with hc | hc
    · rw [surchargeRateOf_band0 hc]; norm_num
    rcases le_or_lt t1 10000000 with hc2 | hc2
    · rw [surchargeRateOf_band10 hc hc2]; norm_num
    rcases le_or_lt t1 20000000 with hc3 | hc3
    · rw [surchargeRateOf_band15 hc2 hc3]; norm_num
    rcases le_or_lt t1 50000000 with hc4 | hc4
    · rw [surchargeRateOf_band25 hc3 hc4]; norm_num
    · rw [surchargeRateOf_band37 hc4]

/-- Taxable income is monotone in gross income with every deduction input
held fixed. -/
theorem taxableIncomeOf_mono (p : TaxParams) {a b : ℚ} (h : a ≤ b) :
    taxableIncomeOf { p with grossIncome := a } ≤ taxableIncomeOf { p with grossIncome := b } := by
  unfold taxableIncomeOf
  simp only
  split_ifs <;> exact max_le_max (le_refl 0) (by linarith)

/-- The rounded total tax of calculateTax in closed form: the rebated base
tax scaled by surcharge and cess factors plus the capital gains tax. -/
theorem calculateTax_totalTax_eq (p : TaxParams) :
    (calculateTax p).totalTax =
      jsRound (rebatedTax (taxSlabs p.regime) (taxableIncomeOf p) *
        (1 + surchargeRateOf (taxableIncomeOf p)) * (104 / 100) + capitalGainsTaxOf p) := by
  unfold calculateTax
  simp only
  congr 1
  ring

/-- C3: with the deduction inputs held fixed, the total tax returned by
calculateTax is monotonically non-decreasing in grossIncome, for either
regime: base tax is cumulative over well-formed slabs, the 87A rebate only
lowers tax below its threshold, the tiered surcharge and the flat cess
scale by non-decreasing non-negative factors, and Math.round preserves
order. -/
theorem calculateTax_totalTax_mono (p : TaxParams) {a b : ℚ} (hab : a ≤ b) :
    (calculateTax { p with grossIncome := a }).totalTax ≤
      (calculateTax { p with grossIncome := b }).totalTax := by
  rw [calculateTax_totalTax_eq, calculateTax_totalTax_eq]
  have hrega : ({ p with grossIncome := a } : TaxParams).regime = p.regime := rfl
  have hregb : ({ p with grossIncome := b } : TaxParams).regime = p.regime := rfl
  have hcga : capitalGainsTaxOf { p with grossIncome := a } = capitalGainsTaxOf p := rfl
  have hcgb : capitalGainsTaxOf { p with grossIncome := b } = capitalGainsTaxOf p := rfl
  rw [hrega, hregb, hcga, hcgb]
  apply jsRound_mono
  have ht := taxableIncomeOf_mono p hab
  have hs := taxSlabs_ok p.regime
  have hmr := rebateMax_nonneg p.regime
  have hr1 := rebatedTax_nonneg _ hs (taxableIncomeOf { p with grossIncome := a })
  have hmono := rebatedTax_mono _ hs hmr ht
  have hs1 := surchargeRateOf_nonneg (taxableIncomeOf { p with grossIncome := a })
  have hsm := surchargeRateOf_mono ht
  have key : rebatedTax (taxSlabs p.regime) (taxableIncomeOf { p with grossIncome := a }) *
      (1 + surchargeRateOf (taxableIncomeOf { p with grossIncome := a })) ≤
      rebatedTax (taxSlabs p.regime) (taxableIncomeOf { p with grossIncome := b }) *
      (1 + surchargeRateOf (taxableIncomeOf { p with grossIncome := b })) :=
    mul_le_mul hmono (by linarith) (by linarith) (le_trans hr1 hmono)
  linarith

/-- Witness for C3 between gross incomes 500,000 and 1,000,000 in the new
regime. -/
theorem calculateTax_totalTax_mono_witness :
    (calculateTax { grossIncome := 500000 }).totalTax ≤
      (calculateTax { grossIncome := 1000000 }).totalTax :=
  calculateTax_totalTax_mono {} (by norm_num)

/-- Closed form of the plan-side balance update: the payment cap and the
zero floor collapse to a single Math.max. -/
theorem planPay_balance (e : ℚ) (d : DebtState) :
    ((planPay e d).1).balance =
      max 0 (d.balance + d.balance * (d.interestRate / 100 / 12) - (d.emi + e)) := by
  unfold planPay
  simp only
  rcases min_cases (d.emi + e) (d.balance + d.balance * (d.interestRate / 100 / 12)) with
    ⟨hmin, hle⟩ | ⟨hmin, hlt⟩ <;> rw [hmin]
  · congr 1
    ring
  · have h1 : d.balance - (d.balance + d.balance * (d.interestRate / 100 / 12) -
        d.balance * (d.interestRate / 100 / 12)) = 0 := by ring
    rw [h1, max_self]
    exact (max_eq_left (by linarith)).symm

/-- Cash-conservation of one plan payment: paid plus balance grows by
exactly the accrued interest. -/
theorem planPay_Q (e : ℚ) (d : DebtState) :
    ((planPay e d).1).paid + ((planPay e d).1).balance =
      d.paid + d.balance + d.balance * (d.interestRate / 100 / 12) := by
  unfold planPay
  simp only
  have hcap := min_le_right (d.emi + e) (d.balance + d.balance * (d.interestRate / 100 / 12))
  rw [show max 0 (d.balance -
      (min (d.emi + e) (d.balance + d.balance * (d.interestRate / 100 / 12)) -
        d.balance * (d.interestRate / 100 / 12))) =
      d.balance - (min (d.emi + e) (d.balance + d.balance * (d.interestRate / 100 / 12)) -
        d.balance * (d.interestRate / 100 / 12)) from max_eq_right (by linarith)]
  ring

/-- The plan payment does not change the installment, the rate or the
name. -/
theorem planPay_fields (e : ℚ) (d : DebtState) :
    ((planPay e d).1).emi = d.emi ∧ ((planPay e d).1).interestRate = d.interestRate := by
  unfold planPay
  exact ⟨rfl, rfl⟩

/-- Closed form of the baseline balance update for an active debt. -/
theorem minStep_balance_active {m : MinDebt} (hm : ¬ m.balance ≤ 0) :
    (minStep m).balance = max 0 (m.balance + m.balance * (m.rate / 100 / 12) - m.emi) := by
  unfold minStep
  rw [if_neg hm]
  simp only
  rcases min_cases m.emi (m.balance + m.balance * (m.rate / 100 / 12)) with
    ⟨hmin, hle⟩ | ⟨hmin, hlt⟩
  · rw [hmin]
  · rw [hmin]
    have h1 : m.balance + m.balance * (m.rate / 100 / 12) -
        (m.balance + m.balance * (m.rate / 100 / 12)) = 0 := by ring
    rw [h1, max_self]
    exact (max_eq_left (by linarith)).symm

/-- Cash-conservation of one baseline payment for an active debt. -/
theorem minStep_Q_active {m : MinDebt} (hm : ¬ m.balance ≤ 0) :
    (minStep m).paid + (minStep m).balance =
      m.paid + m.balance + m.balance * (m.rate / 100 / 12) := by
  unfold minStep
  rw [if_neg hm]
  simp only
  have hcap := min_le_right m.emi (m.balance + m.balance * (m.rate / 100 / 12))
  rw [show max 0 (m.balance + m.balance * (m.rate / 100 / 12) -
      min m.emi (m.balance + m.balance * (m.rate / 100 / 12))) =
      m.balance + m.balance * (m.rate / 100 / 12) -
        min m.emi (m.balance + m.balance * (m.rate / 100 / 12)) from
    max_eq_right (by linarith)]
  ring

/-- The baseline step keeps installment and rate. -/
theorem minStep_fields (m : MinDebt) :
    (minStep m).emi = m.emi ∧ (minStep m).rate = m.rate := by
  unfold minStep
  split_ifs <;> exact ⟨rfl, rfl⟩

/-- One month of stepping preserves the domination relation between a plan
debt (receiving a non-negative extra amount when active) and its baseline
twin. -/
theorem DebtRel_step {e : ℚ} (he : 0 ≤ e) {d : DebtState} {m : MinDebt}
    (h : DebtRel d m) :
    DebtRel (if d.balance ≤ 0 then d else (planPay e d).1) (minStep m) := by
  obtain ⟨he1, he2, hb0, hbb, hr0, hm0, hq⟩ := h
  have hrq : (0 : ℚ) ≤ m.rate / 100 / 12 := by positivity
  by_cases hd : d.balance ≤ 0
  · rw [if_pos hd]
    have hdz : d.balance = 0 := le_antisymm hd hb0
    by_cases hm : m.balance ≤ 0
    · unfold minStep
      rw [if_pos hm]
      exact ⟨he1, he2, hb0, hbb, hr0, hm0, hq⟩
    · have hmb : 0 < m.balance := not_le.mp hm
      have hQ := minStep_Q_active hm
      have hBal := minStep_balance_active hm
      have hf := minStep_fields m
      refine ⟨he1.trans hf.1.symm, he2.trans hf.2.symm, hb0, ?_, hf.2.symm ▸ hr0, hf.1.symm ▸ hm0, ?_⟩
      · rw [hBal, hdz]
        exact le_max_left _ _
      · have hint : 0 ≤ m.balance * (m.rate / 100 / 12) := mul_nonneg (le_of_lt hmb) hrq
        linarith
  · rw [if_neg hd]
    have hdb : 0 < d.balance := not_le.mp hd
    have hmb : 0 < m.balance := lt_of_lt_of_le hdb hbb
    have hm : ¬ m.balance ≤ 0 := not_le.mpr hmb
    have hQp := planPay_Q e d
    have hBp := planPay_balance e d
    have hQm := minStep_Q_active hm
    have hBm := minStep_balance_active hm
    have hfp := planPay_fields e d
    have hfm := minStep_fields m
    have hrate : d.interestRate / 100 / 12 = m.rate / 100 / 12 := by rw [he2]
    have hmul : d.balance * (m.rate / 100 / 12) ≤ m.balance * (m.rate / 100 / 12) :=
      mul_le_mul_of_nonneg_right hbb hrq
    refine ⟨hfp.1.trans (he1.trans hfm.1.symm), hfp.2.trans (he2.trans hfm.2.symm), ?_, ?_, hfm.2.symm ▸ hr0, hfm.1.symm ▸ hm0, ?_⟩
    · rw [hBp]
      exact le_max_left _ _
    · rw [hBp, hBm, hrate]
      exact max_le_max (le_refl 0) (by rw [he1]; linarith)
    · rw [hQp, hQm, hrate]
      linarith

/-- A Forall₂ domination carries any positive plan balance over to the
baseline side. -/
theorem forall2_any_pos {ds : List DebtState} {ms : List MinDebt}
    (h : List.Forall₂ DebtRel ds ms)
    (hpos : (ds.any fun d => decide (0 < d.balance)) = true) :
    (ms.any fun m => decide (0 < m.balance)) = true := by
  induction h with
  | nil => simpa using hpos
  | cons hab htl ih =>
    rw [List.any_cons] at hpos ⊢
    rcases Bool.or_eq_true_iff.mp hpos with hh | ht
    · refine Bool.or_eq_true_iff.mpr (Or.inl ?_)
      have := of_decide_eq_true hh
      exact decide_eq_true (lt_of_lt_of_le this hab.2.2.2.1)
    · exact Bool.or_eq_true_iff.mpr (Or.inr (ih ht))

/-- Summed plan cash-out is bounded by summed baseline cash-out plus
remaining baseline balances. -/
theorem forall2_sum_paid_le {ds : List DebtState} {ms : List MinDebt}
    (h : List.Forall₂ DebtRel ds ms) :
    ((ds.map (·.paid)).sum ≤ (ms.map fun m => m.paid + m.balance).sum) := by
  induction h with
  | nil => simp
  | cons hab htl ih =>
    simp only [List.map_cons, List.sum_cons]
    obtain ⟨-, -, hb0, hbb, -, -, hq⟩ := hab
    have : _ ≤ _ := ih
    linarith

/-- The baseline side of a domination pair is well formed: non-negative
balance and rate. -/
theorem forall2_right_wf {ds : List DebtState} {ms : List MinDebt}
    (h : List.Forall₂ DebtRel ds ms) :
    ∀ m ∈ ms, 0 ≤ m.balance ∧ 0 ≤ m.rate := by
  induction h with
  | nil => intro m hm; exact absurd hm (List.not_mem_nil m)
  | cons hab htl ih =>
    intro m hm
    rcases List.mem_cons.mp hm with rfl | hm2
    · exact ⟨le_trans hab.2.2.1 hab.2.2.2.1, hab.2.2.2.2.1⟩
    · exact ih m hm2

/-- Walking one month of the plan over dominated debts, with any
non-negative pooled extra and freed amount, keeps every debt dominated by
its baseline twin stepped by one minimum-payment month. -/
theorem processMonth_rel (x : ℚ) (hx : 0 ≤ x) :
    ∀ (ds : List DebtState) (ms : List MinDebt) (cleared : Bool) (freed : ℚ),
      0 ≤ freed → List.Forall₂ DebtRel ds ms →
      List.Forall₂ DebtRel (processMonth x ds cleared freed).1 (ms.map minStep) := by
  intro ds
  induction ds with
  | nil =>
    intro ms cleared freed hf hrel
    cases hrel
    simp [processMonth]
  | cons d tl ih =>
    intro ms cleared freed hf hrel
    cases hrel with
    | cons hab htl =>
      rw [List.map_cons]
      unfold processMonth
      by_cases hd : d.balance ≤ 0
      · rw [if_pos hd]
        simp only
        have hh := DebtRel_step (le_refl (0 : ℚ)) hab
        rw [if_pos hd] at hh
        exact List.Forall₂.cons hh (ih _ _ _ hf htl)
      · rw [if_neg hd]
        simp only
        have he : 0 ≤ (if cleared then x + freed else 0 : ℚ) := by
          split_ifs
          · exact add_nonneg hx hf
          · exact le_refl 0
        have hh := DebtRel_step he hab
        rw [if_neg hd] at hh
        have hemi : 0 ≤ d.emi := hab.1 ▸ hab.2.2.2.2.2.1
        have hf1 : 0 ≤
            (if ((planPay (if cleared then x + freed else 0) d).1).balance = 0 then
              freed + d.emi else freed) := by
          split_ifs <;> linarith
        exact List.Forall₂.cons hh (ih _ _ _ hf1 htl)

/-- The month counter of the baseline loop never decreases. -/
theorem minLoop_month_le : ∀ (fuel : ℕ) (ms : List MinDebt) (month : ℕ),
    month ≤ (minLoop fuel ms month).2 := by
  intro fuel
  induction fuel with
  | zero => intro ms month; exact le_refl _
  | succ n ih =>
    intro ms month
    unfold minLoop
    split_ifs with h
    · exact le_trans (Nat.le_succ month) (ih _ _)
    · exact le_refl _

/-- The baseline step preserves non-negative balance and rate. -/
theorem minStep_wf {m : MinDebt} (h : 0 ≤ m.balance ∧ 0 ≤ m.rate) :
    0 ≤ (minStep m).balance ∧ 0 ≤ (minStep m).rate := by
  by_cases hm : m.balance ≤ 0
  · unfold minStep
    rw [if_pos hm]
    exact h
  · refine ⟨?_, ?_⟩
    · rw [minStep_balance_active hm]
      exact le_max_left _ _
    · rw [(minStep_fields m).2]
      exact h.2

/-- The baseline cash-out-plus-balance never decreases in one step. -/
theorem minStep_Q_ge {m : MinDebt} (h : 0 ≤ m.balance ∧ 0 ≤ m.rate) :
    m.paid + m.balance ≤ (minStep m).paid + (minStep m).balance := by
  by_cases hm : m.balance ≤ 0
  · unfold minStep
    rw [if_pos hm]
  · rw [minStep_Q_active hm]
    have hq : (0 : ℚ) ≤ m.rate / 100 / 12 :=
      div_nonneg (div_nonneg h.2 (by norm_num)) (by norm_num)
    have := mul_nonneg h.1 hq
    linarith

/-- The summed baseline cash-out-plus-balance never decreases along the
whole loop, for well-formed debts. -/
theorem minLoop_Q : ∀ (fuel : ℕ) (ms : List MinDebt) (month : ℕ),
    (∀ m ∈ ms, 0 ≤ m.balance ∧ 0 ≤ m.rate) →
    (ms.map fun m => m.paid + m.balance).sum ≤
      ((minLoop fuel ms month).1.map fun m => m.paid + m.balance).sum := by
  intro fuel
  induction fuel with
  | zero => intro ms month hwf; exact le_refl _
  | succ n ih =>
    intro ms month hwf
    unfold minLoop
    split_ifs with h
    · have hstep : (ms.map fun m => m.paid + m.balance).sum ≤
          ((ms.map minStep).map fun m => m.paid + m.balance).sum := by
        rw [List.map_map]
        exact List.sum_le_sum fun m hm => minStep_Q_ge (hwf m hm)
      have hwf2 : ∀ m ∈ ms.map minStep, 0 ≤ m.balance ∧ 0 ≤ m.rate := by
        intro m hm
        obtain ⟨m0, hm0, rfl⟩ := List.mem_map.mp hm
        exact minStep_wf (hwf m0 hm0)
      exact le_trans hstep (ih _ _ hwf2)
    · exact le_refl _

/-- Core comparison: starting from dominated debt lists, the optimized plan
loop finishes no later than the baseline loop and pays out no more cash
than the baseline cash-out plus whatever balance the baseline leaves. -/
theorem planLoop_le_minLoop (x : ℚ) (hx : 0 ≤ x) :
    ∀ (fuel : ℕ) (ds : List DebtState) (ms : List MinDebt) (month : ℕ)
      (acc : List (ℕ × List PaymentRow)),
      List.Forall₂ DebtRel ds ms →
      (planLoop x fuel ds month acc).2.1 ≤ (minLoop fuel ms month).2 ∧
      ((planLoop x fuel ds month acc).1.map (·.paid)).sum ≤
        ((minLoop fuel ms month).1.map fun m => m.paid + m.balance).sum := by
  intro fuel
  induction fuel with
  | zero =>
    intro ds ms month acc hrel
    exact ⟨le_refl _, forall2_sum_paid_le hrel⟩
  | succ n ih =>
    intro ds ms month acc hrel
    unfold planLoop minLoop
    by_cases hany : (ds.any fun d => decide (0 < d.balance)) = true
    · rw [if_pos hany, if_pos (forall2_any_pos hrel hany)]
      simp only
      exact ih _ _ _ _ (processMonth_rel x hx ds ms true 0 (le_refl 0) hrel)
    · rw [if_neg hany]
      by_cases hmany : (ms.any fun m => decide (0 < m.balance)) = true
      · rw [if_pos hmany]
        have hwf := forall2_right_wf hrel
        refine ⟨le_trans (Nat.le_succ month) (minLoop_month_le n _ _), ?_⟩
        have hstep : (ms.map fun m => m.paid + m.balance).sum ≤
            ((ms.map minStep).map fun m => m.paid + m.balance).sum := by
          rw [List.map_map]
          exact List.sum_le_sum fun m hm => minStep_Q_ge (hwf m hm)
        have hwf2 : ∀ m ∈ ms.map minStep, 0 ≤ m.balance ∧ 0 ≤ m.rate := by
          intro m hm
          obtain ⟨m0, hm0, rfl⟩ := List.mem_map.mp hm
          exact minStep_wf (hwf m0 hm0)
        exact le_trans (forall2_sum_paid_le hrel)
          (le_trans hstep (minLoop_Q n _ _ hwf2))
      · rw [if_neg hmany]
        exact ⟨le_refl _, forall2_sum_paid_le hrel⟩

/-- List.any is invariant under permutation. -/
theorem perm_any (p : MinDebt → Bool) {l1 l2 : List MinDebt} (h : l1.Perm l2) :
    l1.any p = l2.any p := by
  cases hb : l2.any p with
  | true =>
    obtain ⟨m, hm, hpm⟩ := List.any_eq_true.mp hb
    exact List.any_eq_true.mpr ⟨m, h.mem_iff.mpr hm, hpm⟩
  | false =>
    rw [List.any_eq_false] at hb ⊢
    intro m hm
    exact hb m (h.mem_iff.mp hm)

/-- The baseline loop is permutation invariant: same month count and
permuted final debts. -/
theorem minLoop_perm : ∀ (fuel : ℕ) {l1 l2 : List MinDebt} (month : ℕ), l1.Perm l2 →
    (minLoop fuel l1 month).2 = (minLoop fuel l2 month).2 ∧
    (minLoop fuel l1 month).1.Perm (minLoop fuel l2 month).1 := by
  intro fuel
  induction fuel with
  | zero => intro l1 l2 month h; exact ⟨rfl, h⟩
  | succ n ih =>
    intro l1 l2 month h
    unfold minLoop
    rw [perm_any _ h]
    by_cases hc : (l2.any fun m => decide (0 < m.balance)) = true
    · rw [if_pos hc, if_pos hc]
      exact ih _ (h.map minStep)
    · rw [if_neg hc, if_neg hc]
      exact ⟨rfl, h⟩

/-- Comparison of the simulated plan over any permutation of the debt set
against the minimum-payment baseline over the original order: the plan
needs no more months, and pays out no more cash than the baseline cash-out
plus the balances the baseline leaves unpaid. -/
theorem payoff_core (liabilities : List Liability) (extra : ℚ) (sorted : List DebtState)
    (hsorted : sorted.Perm (liabilities.map debtStateOf))
    (hprin : ∀ d ∈ liabilities, 0 ≤ d.principal)
    (hrate : ∀ d ∈ liabilities, 0 ≤ d.interestRate)
    (hemi : ∀ d ∈ liabilities, 0 ≤ d.emi)
    (hextra : 0 ≤ extra) :
    (planLoop extra 600 sorted 0 []).2.1 ≤ (minLoop 600 (liabilities.map minDebtOf) 0).2 ∧
      ((planLoop extra 600 sorted 0 []).1.map (·.paid)).sum ≤
        ((minLoop 600 (liabilities.map minDebtOf) 0).1.map fun m => m.paid + m.balance).sum := by
  have hrel0 : List.Forall₂ DebtRel sorted (sorted.map minOfState) := by
    rw [List.forall₂_map_right_iff]
    rw [show (fun (a : DebtState) (c : DebtState) => DebtRel a (minOfState c)) =
      (fun a c => DebtRel a (minOfState c)) from rfl]
    rw [List.forall₂_same]
    intro d hd
    obtain ⟨l0, hl0, rfl⟩ := List.mem_map.mp (hsorted.mem_iff.mp hd)
    exact ⟨rfl, rfl, hprin l0 hl0, le_refl _, hrate l0 hl0, hemi l0 hl0, le_refl _⟩
  have hmain := planLoop_le_minLoop extra hextra 600 sorted (sorted.map minOfState) 0 [] hrel0
  have hmapperm : (sorted.map minOfState).Perm (liabilities.map minDebtOf) := by
    have h1 := hsorted.map minOfState
    rw [List.map_map] at h1
    rwa [show minOfState ∘ debtStateOf = minDebtOf from rfl] at h1
  have hperm := minLoop_perm 600 0 hmapperm
  constructor
  · rw [← hperm.1]
    exact hmain.1
  · have hsum := (hperm.2.map fun m => m.paid + m.balance).sum_eq
    rw [← hsum]
    exact hmain.2

/-- C7 (amended): for well-formed inputs (non-negative principals, rates
and installments) and non-negative extraPayment, the monthsSaved reported
by createPayoffPlan is never negative; and provided the minimum-payment
baseline retires every debt within the 600-month cap, the interestSaved is
never negative either.  (When the baseline hits the cap the plan can pay
out more total cash than the truncated baseline, so the second part needs
the proviso - see the counterexample.) -/
theorem createPayoffPlan_savings (liabilities : List Liability) (extra : ℚ)
    (method : Method) (P : PayoffPlan)
    (hP : createPayoffPlan liabilities extra method = some P)
    (hprin : ∀ d ∈ liabilities, 0 ≤ d.principal)
    (hrate : ∀ d ∈ liabilities, 0 ≤ d.interestRate)
    (hemi : ∀ d ∈ liabilities, 0 ≤ d.emi)
    (hextra : 0 ≤ extra) :
    0 ≤ P.summary.monthsSaved ∧
      (baselineClears liabilities → 0 ≤ P.summary.interestSaved) := by
  by_cases hnil : liabilities = []
  · rw [createPayoffPlan, if_pos hnil] at hP
    cases hP
  have hQ : baselineClears liabilities →
      ((minLoop 600 (liabilities.map minDebtOf) 0).1.map
        fun m => m.paid + m.balance).sum =
        ((minLoop 600 (liabilities.map minDebtOf) 0).1.map (·.paid)).sum := by
    intro hclear
    apply congrArg List.sum
    apply List.map_congr_left
    intro m hm
    rw [hclear m hm, add_zero]
  cases method <;>
  · rw [createPayoffPlan, if_neg hnil] at hP
    simp only at hP
    replace hP := (Option.some.inj hP).symm
    subst hP
    refine ⟨?_, ?_⟩
    · simp only [simulateMinimumPayments]
      rw [sub_nonneg]
      exact_mod_cast (payoff_core liabilities extra _
        ((List.perm_insertionSort _ _).trans ((List.perm_insertionSort _ _).map _))
        hprin hrate hemi hextra).1
    · intro hclear
      simp only [simulateMinimumPayments]
      apply jsRound_nonneg
      rw [sub_nonneg, ← hQ hclear]
      exact (payoff_core liabilities extra _
        ((List.perm_insertionSort _ _).trans ((List.perm_insertionSort _ _).map _))
        hprin hrate hemi hextra).2

/-- Closed form of the baseline run for one interest-free debt of balance
601 with installment 1: after the 600-month cap the balance is 1 and the
cash paid out is 600. -/
theorem minLoop_unit : ∀ (fuel month : ℕ), month + fuel = 600 →
    minLoop fuel [⟨601 - (month : ℚ), 1, 0, (month : ℚ)⟩] month =
      ([⟨1, 1, 0, 600⟩], 600) := by
  intro fuel
  induction fuel with
  | zero =>
    intro month h
    have hm : month = 600 := by omega
    subst hm
    unfold minLoop
    norm_num
  | succ n ih =>
    intro month h
    have hm : month ≤ 599 := by omega
    have hmq : (month : ℚ) ≤ 599 := by exact_mod_cast hm
    have hpos : (0 : ℚ) < 601 - (month : ℚ) := by linarith
    unfold minLoop
    rw [if_pos (by
      simp only [List.any_cons, List.any_nil, Bool.or_false]
      exact decide_eq_true hpos)]
    have hstep : [⟨601 - (month : ℚ), 1, 0, (month : ℚ)⟩].map minStep =
        [⟨601 - ((month : ℚ) + 1), 1, 0, (month : ℚ) + 1⟩] := by
      simp only [List.map_cons, List.map_nil]
      unfold minStep
      rw [if_neg (by simp only; linarith)]
      simp only
      have hz : (601 - (month : ℚ)) * ((0 : ℚ) / 100 / 12) = 0 := by norm_num
      rw [hz, add_zero]
      rw [min_eq_left (by linarith)]
      rw [max_eq_right (by linarith)]
      have h1 : 601 - (month : ℚ) - 1 = 601 - ((month : ℚ) + 1) := by ring
      have h2 : (month : ℚ) + 1 = (month : ℚ) + 1 := rfl
      rw [h1]
    rw [hstep]
    have hcast : ((month + 1 : ℕ) : ℚ) = (month : ℚ) + 1 := by push_cast; ring
    have := ih (month + 1) (by omega)
    rw [hcast] at this
    exact this

/-- The minimum-payment baseline on the unit counterexample debt hits the
600-month cap having paid 600 with balance 1 outstanding. -/
theorem simulateMinimumPayments_unit :
    simulateMinimumPayments [⟨"C", 601, 0, 1, LoanType.other⟩] = ⟨600, 600⟩ := by
  unfold simulateMinimumPayments
  simp only
  have h0 : ([⟨"C", 601, 0, 1, LoanType.other⟩] : List Liability).map minDebtOf =
      [⟨601 - ((0 : ℕ) : ℚ), 1, 0, ((0 : ℕ) : ℚ)⟩] := by
    simp [minDebtOf]
  rw [h0, minLoop_unit 600 0 (by omega)]
  norm_num

/-- C7 counterexample: one interest-free debt of 601 with installment 1 and
extra payment 601.  The baseline hits the 600-month cap having paid only
600 (with balance 1 left), while the plan clears the debt in month 1 by
paying 601, so interestSaved = 600 - 601 = -1 is negative even though the
plan is strictly faster (monthsSaved = 599). -/
theorem createPayoffPlan_interestSaved_counterexample :
    (createPayoffPlan [⟨"C", 601, 0, 1, LoanType.other⟩] 601 Method.avalanche).map
        (fun P => P.summary.interestSaved) = some (-1) := by
  rw [createPayoffPlan, if_neg (by simp)]
  simp only
  rw [simulateMinimumPayments_unit]
  decide

/-- Witness for C7 on a debt set whose baseline clears within the cap: one
interest-free debt of 1200 with installment 100 and extra payment 50; both
monthsSaved and interestSaved are non-negative. -/
theorem createPayoffPlan_savings_witness :
    0 ≤ ((createPayoffPlan [⟨"W", 1200, 0, 100, LoanType.other⟩] 50 Method.avalanche).map
          fun P => P.summary.monthsSaved).getD (-1) ∧
      0 ≤ ((createPayoffPlan [⟨"W", 1200, 0, 100, LoanType.other⟩] 50 Method.avalanche).map
          fun P => P.summary.interestSaved).getD (-1) := by
  obtain ⟨P, hP⟩ : ∃ P, createPayoffPlan [⟨"W", 1200, 0, 100, LoanType.other⟩] 50
      Method.avalanche = some P := ⟨_, rfl⟩
  have h := createPayoffPlan_savings _ 50 Method.avalanche P hP
    (by decide) (by decide) (by decide) (by norm_num)
  rw [hP]
  exact ⟨h.1, h.2 (by decide)⟩

end ProFin
